import Mathlib

/-!
Verification development for the real-estate backend.

The definitions below are shallow embeddings of the JavaScript source:

* `buildQuery`       — the filter object assembled by `getProperties`
                       (src/controllers/propertyController.js, lines 22-43);
* `locationClauseMatches` — the semantics of the `$or` regex clause built for
                       the `location` parameter (same file, lines 37-43);
* `paginate`         — the skip/limit/count pagination of `getProperties`
                       (same file, lines 46-69);
* `classify`, `preSave`, `saveDoc` — the `contactSchema pre-save` hook
                       (src/models/Contact.js, lines 136-168);
* `updContact`       — the staff update operation `updateContact`
                       (src/controllers/contactController.js, lines 163-202),
                       which uses `findByIdAndUpdate` and therefore does NOT
                       run the pre-save hook;
* `markContacted`    — `contactSchema.methods.markAsContacted`
                       (src/models/Contact.js, lines 212-219) followed by the
                       `save()` it performs;
* `serviceFormattedPrice` — the `formattedPrice` virtual of Service
                       (src/models/Service.js, lines 131-153);
* `formatUSD`        — `Intl.NumberFormat en-US currency USD formatting` restricted to whole-dollar amounts
                       (prices are modelled as naturals);
* `propSave` / `updatePropertyOp` — the Property pre-save price-formatting
                       hook (src/models/Property.js, lines 234-242) and the
                       `findByIdAndUpdate`-based `updateProperty`
                       (src/controllers/propertyController.js, lines 158-166);
* `getService`       — the public single-service read
                       (src/unnamed/part_000, `getService`).

JavaScript string truthiness (empty string is falsy) is modelled by
`jsTruthy`; `String.prototype.includes` by `strIncludes`; `new Set([...])`
deduplication (keeping first occurrences) by `jsDedup`; case-insensitive
matching is modelled by ASCII lowering on both sides (`Char.toLower`), which
is exact for the ASCII data the repository handles.
-/

namespace RealEstateBackend

/-! ## String utilities -/

/-- Lower-case every character of a string (models `String.prototype.toLowerCase`
for ASCII data). -/
def lowerStr (s : String) : String :=
  String.mk (s.data.map Char.toLower)

/-- The character list of a string, lower-cased. -/
def lowerChars (s : String) : List Char :=
  s.data.map Char.toLower

/-- Predicate `headMatch p l` is true when `p` is a literal prefix of `l`. -/
def headMatch : List Char → List Char → Bool
  | [], _ => true
  | _ :: _, [] => false
  | p :: ps, c :: cs => p == c && headMatch ps cs

/-- Predicate `subMatch p l` is true when `p` occurs as a contiguous run inside `l`
(tries every start position, like a linear substring scan). -/
def subMatch (p : List Char) : List Char → Bool
  | [] => headMatch p []
  | c :: cs => headMatch p (c :: cs) || subMatch p cs

/-- Relation stating `pat` occurs as a literal contiguous substring of `hay`. -/
def SubstrOf (pat hay : List Char) : Prop :=
  ∃ l1 l2, hay = l1 ++ pat ++ l2

/-- Models `hay.includes(pat)` from JavaScript: literal substring test. -/
def strIncludes (hay pat : String) : Bool :=
  subMatch pat.data hay.data

/-- ASCII whitespace, as stripped by the JS string trim method (the data the
repository handles is ASCII). -/
def isWS (c : Char) : Bool :=
  c == ' ' || c == '\t' || c == '\n' || c == '\r'

/-- Models the JS string trim method: strip whitespace at both ends. -/
def jsTrim (s : String) : String :=
  String.mk (((s.data.dropWhile isWS).reverse.dropWhile isWS).reverse)

/-- The mongoose cast applied to each element of the Contact `tags` array
(src/models/Contact.js, lines 93-97: `trim: true, lowercase: true`): the
stored value is the trimmed, lower-cased string.  This runs when the
document is cast at creation, before the pre-save hook sees the tags. -/
def castTag (s : String) : String :=
  lowerStr (jsTrim s)

/-! ## A fragment of JavaScript regular expressions

`getProperties` passes the raw `location` parameter as a `$regex` pattern
with the "i" (ignore-case) option.  We embed the fragment of the pattern language actually
exercised by the claims: literal characters plus the `.` wildcard.  On
patterns free of all JS regex metacharacters this fragment coincides with
full JS regex semantics (every character is then a literal). -/

/-- A compiled pattern token: a literal character or the `.` wildcard. -/
inductive RTok where
  | lit (c : Char)
  | wild
deriving DecidableEq

/-- Compile a pattern string for case-insensitive matching: `.` becomes the
wildcard, every other character a (lower-cased) literal. -/
def jsToksCI (pat : String) : List RTok :=
  pat.data.map (fun c => if c == '.' then RTok.wild else RTok.lit c.toLower)

/-- Whether one token matches one (already lower-cased) subject character. -/
def tokMatches : RTok → Char → Bool
  | RTok.wild, _ => true
  | RTok.lit c, d => c == d

/-- Whether the token list matches at the start of the subject. -/
def toksHeadMatch : List RTok → List Char → Bool
  | [], _ => true
  | _ :: _, [] => false
  | t :: ts, c :: cs => tokMatches t c && toksHeadMatch ts cs

/-- Unanchored regex search: the token list matches somewhere in the subject
(like `new RegExp(pat).test(subj)`). -/
def toksFind (ts : List RTok) : List Char → Bool
  | [] => toksHeadMatch ts []
  | c :: cs => toksHeadMatch ts (c :: cs) || toksFind ts cs

/-- Semantics of a regex-with-option-i condition applied to a string field: compile the raw
pattern and search the lower-cased subject. -/
def regexTestCI (pat subj : String) : Bool :=
  toksFind (jsToksCI pat) (lowerChars subj)

/-- The metacharacters of JavaScript regular expressions. -/
def jsRegexSpecials : List Char :=
  ['\\', '^', '$', '.', '|', '?', '*', '+', '(', ')', '[', ']', '\x7b', '\x7d']

/-! ## The property list filter (`getProperties`, lines 22-43) -/

/-- JavaScript truthiness of an optional query-string value: absent and the
empty string are falsy, every other string is truthy. -/
def jsTruthy : Option String → Bool
  | none => false
  | some s => !(s == "")

/-- The raw optional query parameters of `GET /api/v1/properties`. -/
structure ListParams where
  type : Option String
  category : Option String
  location : Option String
  minPrice : Option String
  maxPrice : Option String
  featured : Option String
  status : Option String
deriving DecidableEq

/-- The `query.price` range condition: the `$gte` / `$lte` bounds that were
attached (recorded as the supplied strings; the shared `parseFloat`
conversion is downstream of predicate construction). -/
structure PriceCond where
  gte : Option String
  lte : Option String
deriving DecidableEq

/-- The filter object assembled by `getProperties`. -/
structure PropQuery where
  status : String
  type : Option String
  category : Option String
  featured : Option Bool
  price : Option PriceCond
  location : Option String
deriving DecidableEq

/-- Embeds lines 22-43 of src/controllers/propertyController.js:
`const query = { status }` with `status` defaulting to "Available" by destructuring, `if (type) ...`, `if (category) ...`,
the featured coercion (present iff supplied, true iff the string is "true"),
`if (minPrice || maxPrice) { ... if (minPrice) ... if (maxPrice) ... }`,
`if (location) query.$or = [...]` (the `$or` clause is recorded as the raw
pattern string; its matching semantics is `locationClauseMatches`). -/
def buildQuery (p : ListParams) : PropQuery :=
  { status := p.status.getD "Available"
    type := if jsTruthy p.type then p.type else none
    category := if jsTruthy p.category then p.category else none
    featured := p.featured.map (fun s => s == "true")
    price :=
      if jsTruthy p.minPrice || jsTruthy p.maxPrice then
        some { gte := if jsTruthy p.minPrice then p.minPrice else none
               lte := if jsTruthy p.maxPrice then p.maxPrice else none }
      else none
    location := if jsTruthy p.location then p.location else none }

/-! ## Property documents and the location clause -/

/-- The fields of a property document relevant to the claims. -/
structure PropertyDoc where
  name : String
  description : String
  location : String
  price : Nat
  priceFormatted : Option String
deriving DecidableEq

/-- The semantics of the `$or` clause built for a supplied `location`
parameter (lines 37-43): the raw string is used as a case-insensitive regex
pattern against each of `location`, `name`, `description`, joined by OR. -/
def locationClauseMatches (s : String) (d : PropertyDoc) : Bool :=
  regexTestCI s d.location || regexTestCI s d.name || regexTestCI s d.description

/-! ## Pagination (`getProperties`, lines 46-69) -/

/-- The pagination metadata object of `getProperties`. -/
structure PageInfo where
  currentPage : Nat
  totalPages : Nat
  totalItems : Nat
  itemsPerPage : Nat
  hasNextPage : Bool
  hasPreviousPage : Bool
deriving DecidableEq

/-- Embeds lines 46-69: `skip = (page-1)*limit`, the `.skip(skip).limit(limit)`
window over the matching documents, `totalPages = Math.ceil(totalItems/limit)`
(the integer form `(t + limit - 1) / limit` agrees with `Math.ceil` for
`limit ≥ 1`), `hasNextPage = page < totalPages`, `hasPreviousPage = page > 1`.
`matching` is the full, sorted list of documents satisfying the predicate in
a static dataset; `countDocuments` over the same predicate is its length. -/
def paginate {α : Type} (matching : List α) (page limit : Nat) : List α × PageInfo :=
  let skip := (page - 1) * limit
  let totalItems := matching.length
  let totalPages := (totalItems + limit - 1) / limit
  ((matching.drop skip).take limit,
   { currentPage := page
     totalPages := totalPages
     totalItems := totalItems
     itemsPerPage := limit
     hasNextPage := decide (page < totalPages)
     hasPreviousPage := decide (1 < page) })

/-! ## Contact documents and the pre-save classification hook -/

/-- The fields of a contact document relevant to the claims.  `isNew` is the
mongoose flag tested by the pre-save hook: true until the first successful
save. -/
structure Contact where
  message : String
  subject : Option String
  status : String
  priority : String
  notes : Option String
  assignedTo : Option String
  responseDate : Option Nat
  tags : List String
  isNew : Bool
deriving DecidableEq

/-- A freshly constructed (not yet saved) contact document: workflow status
defaults to `"pending"`, priority to the caller value or the schema default
`"medium"`, no response date.  The schema cast normalizes each caller tag
(trim + lowercase, Contact.js lines 93-97) before the pre-save hook runs;
the tags the hook itself assigns are already normalized, so the
re-application of the cast on that assignment is the identity. -/
def mkContact (m : String) (subj sup : Option String) (tags0 : List String) : Contact :=
  { message := m
    subject := subj
    status := "pending"
    priority := sup.getD "medium"
    notes := none
    assignedTo := none
    responseDate := none
    tags := tags0.map castTag
    isNew := true }

/-- Text classified by the hook: message, a space, and the subject (or empty),
lower-cased
(src/models/Contact.js, line 142). -/
def contactText (c : Contact) : String :=
  lowerStr (c.message ++ " " ++ c.subject.getD "")

/-- The urgent keyword list (line 139). -/
def urgentKeywords : List String := ["urgent", "asap", "immediately", "emergency"]

/-- The high-priority keyword list (line 140). -/
def highKeywords : List String := ["important", "priority", "soon", "quickly"]

/-- The auto-tag rule (lines 150-163): one pass pushing each matched tag. -/
def ruleTags (t : String) : List String :=
  (if strIncludes t "viewing" || strIncludes t "visit" then ["viewing-request"] else [])
  ++ (if strIncludes t "price" || strIncludes t "cost" then ["pricing-inquiry"] else [])
  ++ (if strIncludes t "mortgage" || strIncludes t "financing" then ["financing"] else [])
  ++ (if strIncludes t "investment" then ["investment"] else [])

/-- JavaScript `[...new Set(l)]`: remove duplicates keeping the first
occurrence of each element, preserving order. -/
def jsDedupAux (seen : List String) : List String → List String
  | [] => []
  | a :: l => if a ∈ seen then jsDedupAux seen l else a :: jsDedupAux (a :: seen) l

/-- Deduplication as done by a JS Set spread. -/
def jsDedup (l : List String) : List String := jsDedupAux [] l

/-- The body of the pre-save hook for a new document (lines 138-166):
keyword-based priority escalation, then `this.tags =
[...new Set([...this.tags, ...tags])]`. -/
def classify (c : Contact) : Contact :=
  let t := contactText c
  let c1 :=
    if urgentKeywords.any (fun k => strIncludes t k) then { c with priority := "urgent" }
    else if highKeywords.any (fun k => strIncludes t k) then { c with priority := "high" }
    else c
  { c1 with tags := jsDedup (c1.tags ++ ruleTags t) }

/-- Hook `contactSchema pre-save` (lines 137-168): the classification runs only
when `this.isNew`. -/
def preSave (c : Contact) : Contact :=
  if c.isNew then classify c else c

/-- A successful `save()`: run the pre-save hook, persist; the document is no
longer new. -/
def saveDoc (c : Contact) : Contact :=
  { preSave c with isNew := false }

/-! ## Contact staff operations -/

/-- The body fields read by `updateContact`
(src/controllers/contactController.js, line 164). -/
structure ContactUpdate where
  status : Option String
  notes : Option String
  assignedTo : Option String
  priority : Option String
deriving DecidableEq

/-- Operation `updateContact` (lines 163-202): each field enters `updateData` only when
truthy; `responseDate` is added exactly when the requested status is
"contacted" and the stored status is not already "contacted"; the update
is applied with `findByIdAndUpdate`, which does not run the pre-save hook. -/
def updContact (u : ContactUpdate) (now : Nat) (c : Contact) : Contact :=
  { c with
    status := match u.status with
      | some s => if s == "" then c.status else s
      | none => c.status
    notes := match u.notes with
      | some s => if s == "" then c.notes else some s
      | none => c.notes
    assignedTo := match u.assignedTo with
      | some s => if s == "" then c.assignedTo else some s
      | none => c.assignedTo
    priority := match u.priority with
      | some s => if s == "" then c.priority else s
      | none => c.priority
    responseDate :=
      if u.status == some "contacted" && !(c.status == "contacted") then some now
      else c.responseDate }

/-- Method `markAsContacted` (src/models/Contact.js, lines 212-219): unconditionally
set status to "contacted" and `responseDate` to the current time, set notes
when truthy, then `save()` (which runs the hook; the document is not new). -/
def markContacted (notes : Option String) (now : Nat) (c : Contact) : Contact :=
  saveDoc
    { c with
      status := "contacted"
      responseDate := some now
      notes := match notes with
        | some s => if s == "" then c.notes else some s
        | none => c.notes }

/-! ## Currency formatting and the Service price virtual -/

/-- Insert a comma after every third character of a reversed digit list
(`k` counts characters still allowed before the next comma). -/
def commaRev (k : Nat) : List Char → List Char
  | [] => []
  | c :: cs => if k == 0 then ',' :: c :: commaRev 2 cs else c :: commaRev (k - 1) cs

/-- `Intl.NumberFormat en-US currency USD formatting` on a
whole-dollar amount: dollar sign, comma-grouped digits, `.00`. -/
def formatUSD (n : Nat) : String :=
  "$" ++ String.mk ((commaRev 3 (Nat.repr n).data.reverse).reverse) ++ ".00"

/-- The `formattedPrice` virtual of Service (src/models/Service.js,
lines 131-153). -/
def serviceFormattedPrice (priceType : String) (price : Nat) : String :=
  if priceType = "free" then "Free"
  else if priceType = "consultation" then "Contact for pricing"
  else if price = 0 then "Contact for pricing"
  else if priceType = "hourly" then formatUSD price ++ "/hour"
  else if priceType = "percentage" then Nat.repr price ++ "%"
  else formatUSD price

/-- The same derivation written from the specification words: "free" is the
literal "Free"; "consultation" or a zero amount is "Contact for pricing";
"hourly" is the currency string suffixed "/hour"; "percentage" is the bare
numeric value suffixed "%"; every other mode is the plain currency string. -/
def refServiceFormattedPrice (priceType : String) (price : Nat) : String :=
  if priceType = "free" then "Free"
  else if priceType = "consultation" ∨ price = 0 then "Contact for pricing"
  else if priceType = "hourly" then formatUSD price ++ "/hour"
  else if priceType = "percentage" then Nat.repr price ++ "%"
  else formatUSD price

/-! ## Property save and update -/

/-- Hook `propertySchema pre-save` (src/models/Property.js, lines 234-242):
`if (this.price) this.priceFormatted = <currency format>`.  A price of 0 is
falsy, so the guard skips it.  Persisting via `save()` runs exactly this. -/
def propSave (p : PropertyDoc) : PropertyDoc :=
  if p.price ≠ 0 then { p with priceFormatted := some (formatUSD p.price) } else p

/-- The update body fields relevant to the price claim. -/
structure PropertyUpdateBody where
  price : Option Nat
  priceFormatted : Option String
deriving DecidableEq

/-- Operation `updateProperty` (src/controllers/propertyController.js, lines 158-166):
`findByIdAndUpdate(id, req.body, ...)` applies the supplied fields directly;
it does not run the pre-save hook, so `priceFormatted` is not recomputed. -/
def updatePropertyOp (body : PropertyUpdateBody) (p : PropertyDoc) : PropertyDoc :=
  { p with
    price := body.price.getD p.price
    priceFormatted := match body.priceFormatted with
      | some s => some s
      | none => p.priceFormatted }

/-! ## The public single-service read (`getService`, src/unnamed/part_000) -/

/-- The fields of a service document relevant to the read claim. -/
structure ServiceDoc where
  id : Nat
  active : Bool
  views : Nat
deriving DecidableEq

/-- The failure envelope body `{status, error: {code, message}, timestamp}`. -/
structure ErrorBody where
  status : Nat
  code : String
  message : String
  timestamp : Nat
deriving DecidableEq

/-- The outcome of the single-service read. -/
inductive ServiceResult where
  | ok (s : ServiceDoc)
  | err (e : ErrorBody)
deriving DecidableEq

/-- The 404 envelope produced by `getService` for a missing or inactive id. -/
def serviceNotFound (now : Nat) : ErrorBody :=
  { status := 404, code := "NOT_FOUND", message := "Service not found", timestamp := now }

/-- Lookup `Service.findById` over a static store. -/
def findServiceById (store : List ServiceDoc) (id : Nat) : Option ServiceDoc :=
  store.find? (fun s => s.id == id)

/-- Operation `getService` (src/unnamed/part_000, lines 32-54): 404 when the id is
absent or the service is inactive (`!service || !service.active`), otherwise
increment the view counter (`incrementViews` mutates then saves; the
fire-and-forget save is modelled synchronously) and return the service.
Returns the response together with the store after the operation. -/
def getService (store : List ServiceDoc) (id now : Nat) : ServiceResult × List ServiceDoc :=
  match findServiceById store id with
  | none => (ServiceResult.err (serviceNotFound now), store)
  | some s =>
    if !s.active then (ServiceResult.err (serviceNotFound now), store)
    else
      let s2 := { s with views := s.views + 1 }
      (ServiceResult.ok s2, store.map (fun t => if t.id == s.id then s2 else t))

/-! ## Reference formulations written from the specification words -/

/-- The contact priority rule as the specification words it, with the text
taken as the lower-cased space-separated join of message and subject (the
amendment forced by the counterexample below; the specification says plain
concatenation): rule 1 (urgent keywords) first, then rule 2 (high keywords),
otherwise the caller-supplied value or the default `"medium"`. -/
def refPriority (m : String) (subj sup : Option String) : String :=
  let t := lowerStr (m ++ " " ++ subj.getD "")
  if urgentKeywords.any (fun k => strIncludes t k) then "urgent"
  else if highKeywords.any (fun k => strIncludes t k) then "high"
  else sup.getD "medium"

/-- The C1 reference contract for the assembled filter, for one parameter
set: the status condition is the supplied status or the default; type and
category appear exactly as supplied; `featured` appears iff supplied, is the
boolean `true` exactly for the string `"true"` and `false` for every other
supplied string; a single price range condition carries exactly the supplied
bounds and is present iff at least one bound was supplied. -/
def C1Spec (p : ListParams) : Prop :=
  (buildQuery p).status = p.status.getD "Available"
  ∧ (buildQuery p).type = p.type
  ∧ (buildQuery p).category = p.category
  ∧ ((buildQuery p).featured.isSome ↔ p.featured.isSome)
  ∧ ((buildQuery p).featured = some true ↔ p.featured = some "true")
  ∧ ((buildQuery p).featured = some false ↔ (p.featured.isSome ∧ p.featured ≠ some "true"))
  ∧ (buildQuery p).price =
      (if p.minPrice = none ∧ p.maxPrice = none then none
       else some { gte := p.minPrice, lte := p.maxPrice })

/-- The C3 pagination contract for one call: the metadata echoes page and
limit, counts the whole matching list, `totalPages` is the ceiling of
`totalItems / limit` (characterised by the two inequalities, plus the zero
case), the returned window starts at offset `(page-1)*limit`, `hasNextPage`
is false exactly when `currentPage ≥ totalPages`, and `hasPreviousPage` is
false exactly when `currentPage = 1`. -/
def C3Spec {α : Type} (matching : List α) (page limit : Nat) : Prop :=
  (paginate matching page limit).2.currentPage = page
  ∧ (paginate matching page limit).2.itemsPerPage = limit
  ∧ (paginate matching page limit).2.totalItems = matching.length
  ∧ matching.length ≤ (paginate matching page limit).2.totalPages * limit
  ∧ (paginate matching page limit).2.totalPages * limit < matching.length + limit
  ∧ (matching.length = 0 → (paginate matching page limit).2.totalPages = 0)
  ∧ (paginate matching page limit).1 = (matching.drop ((page - 1) * limit)).take limit
  ∧ ((paginate matching page limit).2.hasNextPage = false
      ↔ (paginate matching page limit).2.totalPages ≤ page)
  ∧ ((paginate matching page limit).2.hasPreviousPage = false ↔ page = 1)

/-- The C5 (amended) tag contract for one newly created contact: the
persisted tag list is exactly the union of the normalized (trimmed,
lower-cased) caller-supplied tags and the rule-derived tags (membership
characterisation, including the per-tag iff conditions), it has no
duplicates, and re-running the classification on the saved document leaves
the tag list unchanged. -/
def C5Spec (m : String) (subj sup : Option String) (tags0 : List String) : Prop :=
  let c := saveDoc (mkContact m subj sup tags0)
  let t := contactText (mkContact m subj sup tags0)
  (∀ x, x ∈ c.tags ↔ (x ∈ tags0.map castTag ∨ x ∈ ruleTags t))
  ∧ ("viewing-request" ∈ ruleTags t
      ↔ (strIncludes t "viewing" = true ∨ strIncludes t "visit" = true))
  ∧ ("pricing-inquiry" ∈ ruleTags t
      ↔ (strIncludes t "price" = true ∨ strIncludes t "cost" = true))
  ∧ ("financing" ∈ ruleTags t
      ↔ (strIncludes t "mortgage" = true ∨ strIncludes t "financing" = true))
  ∧ ("investment" ∈ ruleTags t ↔ strIncludes t "investment" = true)
  ∧ c.tags.Nodup
  ∧ (classify c).tags = c.tags

/-- The C6 invariant for one persisted contact and one operation round: a
re-save and the mark-as-contacted operation leave priority and tags
untouched, the staff update never touches tags, and it changes priority to
exactly the explicitly supplied (truthy) value, otherwise leaves it. -/
def C6Spec (c : Contact) (u : ContactUpdate) (notes : Option String) (now : Nat) : Prop :=
  (saveDoc c).priority = c.priority
  ∧ (saveDoc c).tags = c.tags
  ∧ (updContact u now c).tags = c.tags
  ∧ (markContacted notes now c).tags = c.tags
  ∧ (markContacted notes now c).priority = c.priority
  ∧ (updContact u now c).priority =
      (match u.priority with
       | some s => if s == "" then c.priority else s
       | none => c.priority)

/-- The C9 (amended) response-date contract for one persisted contact: the
dedicated mark-as-contacted operation stamps the current time on every call;
the staff update stamps it exactly on a transition into `"contacted"` from a
different status and otherwise preserves it; a plain re-save preserves it. -/
def C9Spec (c : Contact) (u : ContactUpdate) (notes : Option String) (now : Nat) : Prop :=
  (markContacted notes now c).responseDate = some now
  ∧ ((updContact u now c).responseDate =
      if u.status = some "contacted" ∧ c.status ≠ "contacted" then some now
      else c.responseDate)
  ∧ (saveDoc c).responseDate = c.responseDate

/-- The C10 contract for one store and id: the read returns the same 404
NOT_FOUND envelope as for an absent id and leaves the store (and thus every
view counter) unchanged. -/
def C10Spec (store : List ServiceDoc) (id now : Nat) : Prop :=
  getService store id now = (ServiceResult.err (serviceNotFound now), store)
  ∧ (getService store id now).1 = (getService [] id now).1

/-! ## Concrete inputs used by counterexamples and witnesses -/

/-- Parameters supplying `category` as the empty string (C1 counterexample). -/
def c1CEParams : ListParams :=
  { type := none, category := some "", location := none, minPrice := none,
    maxPrice := none, featured := none, status := none }

/-- A concrete well-formed parameter set (C1 witness). -/
def c1WParams : ListParams :=
  { type := some "Buy", category := none, location := none,
    minPrice := some "1000000", maxPrice := some "5000000",
    featured := some "yes", status := none }

/-- A concrete property document (C2). -/
def c2CEDoc : PropertyDoc :=
  { name := "xx", description := "yy", location := "abc", price := 0,
    priceFormatted := none }

/-- A concrete property document whose location contains "paris" (C2 witness). -/
def c2WDoc : PropertyDoc :=
  { name := "Grand Villa", description := "A quiet villa",
    location := "paris, france", price := 0, priceFormatted := none }

/-- A concrete persisted contact (no keywords in its text). -/
def plainSavedContact : Contact :=
  saveDoc (mkContact "hello there friend" none none [])

/-- A concrete persisted contact whose text contains "urgent" but whose
stored priority was explicitly set to "low" afterwards (C6 witness input). -/
def lowPrioritySavedContact : Contact :=
  updContact { status := none, notes := none, assignedTo := none, priority := some "low" } 0
    (saveDoc (mkContact "this is urgent please call me" none none []))

/-- A concrete property document as created through `save` (C8). -/
def c8CreatedDoc : PropertyDoc :=
  propSave { name := "Sunset Villa", description := "Nice", location := "Miami",
             price := 1000, priceFormatted := none }

/-- The C8 update request: change the price to 2000. -/
def c8UpdateBody : PropertyUpdateBody := { price := some 2000, priceFormatted := none }

/-- A concrete inactive service and the one-element store holding it (C10). -/
def inactiveService : ServiceDoc := { id := 1, active := false, views := 0 }

/-- The one-element store holding only the inactive service (C10 witness). -/
def c10Store : List ServiceDoc := [inactiveService]

/-! ## Helper lemmas: substring search and the literal-regex fragment -/

theorem headMatch_eq_true_iff (p l : List Char) :
    headMatch p l = true ↔ ∃ l2, l = p ++ l2 := by
  induction p generalizing l with
  | nil =>
    simp [headMatch]
  | cons a ps ih =>
    cases l with
    | nil => simp [headMatch]
    | cons b bs =>
      simp only [headMatch, Bool.and_eq_true, beq_iff_eq, ih, List.cons_append,
        List.cons.injEq]
      constructor
      · rintro ⟨rfl, l2, rfl⟩
        exact ⟨l2, rfl, rfl⟩
      · rintro ⟨l2, rfl, rfl⟩
        exact ⟨rfl, l2, rfl⟩

theorem substrOf_cons_iff (p : List Char) (c : Char) (cs : List Char) :
    SubstrOf p (c :: cs) ↔ (∃ l2, c :: cs = p ++ l2) ∨ SubstrOf p cs := by
  constructor
  · rintro ⟨l1, l2, h⟩
    cases l1 with
    | nil => exact Or.inl ⟨l2, by simpa using h⟩
    | cons d ds =>
      obtain ⟨_, h2⟩ := List.cons.inj h
      exact Or.inr ⟨ds, l2, h2⟩
  · rintro (⟨l2, h⟩ | ⟨l1, l2, h⟩)
    · exact ⟨[], l2, by simpa using h⟩
    · exact ⟨c :: l1, l2, by simp [h]⟩

theorem subMatch_eq_true_iff (p l : List Char) :
    subMatch p l = true ↔ SubstrOf p l := by
  induction l with
  | nil =>
    simp only [subMatch, headMatch_eq_true_iff, SubstrOf]
    constructor
    · rintro ⟨l2, h⟩
      exact ⟨[], l2, by simpa using h⟩
    · rintro ⟨l1, l2, h⟩
      have h1 : l1 = [] := by
        cases l1 with
        | nil => rfl
        | cons x xs => simp at h
      subst h1
      exact ⟨l2, by simpa using h⟩
  | cons c cs ih =>
    simp only [subMatch, Bool.or_eq_true, headMatch_eq_true_iff, ih, substrOf_cons_iff]

theorem toksHeadMatch_map_lit (ps l : List Char) :
    toksHeadMatch (ps.map RTok.lit) l = headMatch ps l := by
  induction ps generalizing l with
  | nil => rfl
  | cons a ps ih =>
    cases l with
    | nil => rfl
    | cons b bs => simp [toksHeadMatch, headMatch, tokMatches, ih]

theorem toksFind_map_lit (ps l : List Char) :
    toksFind (ps.map RTok.lit) l = subMatch ps l := by
  induction l with
  | nil => simp [toksFind, subMatch, toksHeadMatch_map_lit]
  | cons c cs ih => simp [toksFind, subMatch, toksHeadMatch_map_lit, ih]

theorem jsToksCI_of_no_special (pat : String)
    (h : ∀ c ∈ pat.data, c ∉ jsRegexSpecials) :
    jsToksCI pat = (lowerChars pat).map RTok.lit := by
  unfold jsToksCI lowerChars
  rw [List.map_map]
  apply List.map_congr_left
  intro c hc
  have hdot : ¬(c = '.') := by
    intro hd
    exact h c hc (by rw [hd]; decide)
  simp [Function.comp, hdot]

theorem regexTestCI_eq_subMatch (pat subj : String)
    (h : ∀ c ∈ pat.data, c ∉ jsRegexSpecials) :
    regexTestCI pat subj = subMatch (lowerChars pat) (lowerChars subj) := by
  unfold regexTestCI
  rw [jsToksCI_of_no_special pat h, toksFind_map_lit]

theorem jsTruthy_eq_isSome {o : Option String} (h : o ≠ some "") :
    jsTruthy o = o.isSome := by
  cases o with
  | none => rfl
  | some s =>
    have hs : ¬(s = "") := fun e => h (by rw [e])
    simp [jsTruthy, hs]

/-! ## C1: the filter built by the property list operation -/

/-- C1 counterexample: the claim says category (likewise type, and the price
bounds) appears in the predicate if and only if the caller supplied it; but
a caller-supplied empty string is falsy in JavaScript, so `if (category)`
omits it although it was supplied. -/
theorem getProperties_filter_counterexample :
    c1CEParams.category = some "" ∧ (buildQuery c1CEParams).category = none := by
  constructor
  · rfl
  · rfl

/-- C1 (amended): for every call in which none of category, type, minPrice,
maxPrice is supplied as the empty string, the built predicate satisfies the
reference contract `C1Spec`: status is the supplied value or the default
"Available"; category and type appear exactly when supplied, with the
supplied value; featured appears iff supplied and is the boolean true exactly
for the string "true"; the price range condition is present iff at least one
bound is supplied, and carries exactly the supplied bounds. -/
theorem getProperties_filter_builder (p : ListParams)
    (ht : p.type ≠ some "") (hc : p.category ≠ some "")
    (hmin : p.minPrice ≠ some "") (hmax : p.maxPrice ≠ some "") : C1Spec p := by
  have et := jsTruthy_eq_isSome ht
  have ec := jsTruthy_eq_isSome hc
  have emin := jsTruthy_eq_isSome hmin
  have emax := jsTruthy_eq_isSome hmax
  unfold C1Spec buildQuery
  rw [et, ec, emin, emax]
  refine ⟨rfl, ?_, ?_, ?_, ?_, ?_, ?_⟩
  · cases p.type <;> simp
  · cases p.category <;> simp
  · cases p.featured <;> simp
  · cases hf : p.featured with
    | none => simp
    | some s => simp [beq_iff_eq]
  · cases hf : p.featured with
    | none => simp
    | some s => simp [beq_iff_eq]
  · cases hm : p.minPrice <;> cases hx : p.maxPrice <;> simp

/-- C1 witness: the amended theorem applied to a concrete parameter set
(a Buy filter with both price bounds and a non-"true" featured string). -/
theorem getProperties_filter_builder_witness :
    (c1WParams.type ≠ some "" ∧ c1WParams.category ≠ some ""
     ∧ c1WParams.minPrice ≠ some "" ∧ c1WParams.maxPrice ≠ some "")
    ∧ C1Spec c1WParams :=
  ⟨by refine ⟨?_, ?_, ?_, ?_⟩ <;> decide,
   getProperties_filter_builder c1WParams (by decide) (by decide) (by decide) (by decide)⟩

/-! ## C2: the location clause semantics -/

/-- C2 counterexample: the claim says the location clause is a literal
case-insensitive contains-match for every string including those containing
regex metacharacters; but the raw string is passed to `$regex` unescaped, so
the pattern "a.c" matches the document value "abc" (the dot is a wildcard)
although "a.c" is not a literal substring of any of the three fields. -/
theorem getProperties_location_filter_counterexample :
    locationClauseMatches "a.c" c2CEDoc = true
    ∧ ¬(SubstrOf (lowerChars "a.c") (lowerChars c2CEDoc.location)
        ∨ SubstrOf (lowerChars "a.c") (lowerChars c2CEDoc.name)
        ∨ SubstrOf (lowerChars "a.c") (lowerChars c2CEDoc.description)) := by
  constructor
  · decide
  · simp only [← subMatch_eq_true_iff]
    decide

/-- C2 (amended): for every supplied location string containing no JS regex
metacharacter, the built `$or` clause matches a property document exactly
when the string occurs case-insensitively as a literal substring of at least
one of its location, name, description fields. -/
theorem getProperties_location_filter (s : String) (d : PropertyDoc)
    (h : ∀ c ∈ s.data, c ∉ jsRegexSpecials) :
    locationClauseMatches s d = true ↔
      (SubstrOf (lowerChars s) (lowerChars d.location)
       ∨ SubstrOf (lowerChars s) (lowerChars d.name)
       ∨ SubstrOf (lowerChars s) (lowerChars d.description)) := by
  unfold locationClauseMatches
  rw [regexTestCI_eq_subMatch s d.location h, regexTestCI_eq_subMatch s d.name h,
    regexTestCI_eq_subMatch s d.description h]
  simp [subMatch_eq_true_iff, or_assoc]

/-- C2 witness: the amended theorem applied to the pattern "Paris" and a
concrete document whose location field contains it case-insensitively. -/
theorem getProperties_location_filter_witness :
    (∀ c ∈ "Paris".data, c ∉ jsRegexSpecials)
    ∧ (locationClauseMatches "Paris" c2WDoc = true ↔
       (SubstrOf (lowerChars "Paris") (lowerChars c2WDoc.location)
        ∨ SubstrOf (lowerChars "Paris") (lowerChars c2WDoc.name)
        ∨ SubstrOf (lowerChars "Paris") (lowerChars c2WDoc.description))) :=
  ⟨by decide, getProperties_location_filter "Paris" c2WDoc (by decide)⟩

/-! ## C3: pagination metadata -/

theorem ceil_mul_lower {t l : Nat} (hl : 1 ≤ l) : t ≤ ((t + l - 1) / l) * l := by
  rcases Nat.eq_zero_or_pos t with h0 | h0
  · simp [h0]
  · by_contra hcon
    push_neg at hcon
    have hexp : ((t + l - 1) / l + 1) * l = ((t + l - 1) / l) * l + l := by ring
    have hle : ((t + l - 1) / l + 1) * l ≤ t + l - 1 := by omega
    have := (Nat.le_div_iff_mul_le (by omega : 0 < l)).mpr hle
    omega

theorem ceil_mul_upper {t l : Nat} (hl : 1 ≤ l) : ((t + l - 1) / l) * l < t + l := by
  have := Nat.div_mul_le_self (t + l - 1) l
  omega

/-- C3 counterexample: the claim says hasNextPage is false exactly when
currentPage equals totalPages or there are no items; but for a page past the
end (page 2 of a one-item, one-per-page dataset) the code computes
`2 < 1 = false` although currentPage (2) differs from totalPages (1) and
totalItems (1) is nonzero — the claimed biconditional demands true there. -/
theorem getProperties_pagination_counterexample :
    (paginate [0] 2 1).2.hasNextPage = false
    ∧ (paginate [0] 2 1).2.currentPage ≠ (paginate [0] 2 1).2.totalPages
    ∧ (paginate [0] 2 1).2.totalItems ≠ 0 := by
  refine ⟨rfl, ?_, ?_⟩ <;> decide

/-- C3 (amended): for every page ≥ 1, limit in 1..100 and static dataset,
the pagination metadata satisfies `C3Spec`: currentPage = page, itemsPerPage
= limit, totalItems counts the matching list, totalPages is the ceiling of
totalItems/limit (0 when there are no items), the returned items start at
offset (page-1)*limit, hasNextPage is false exactly when currentPage ≥
totalPages, and hasPreviousPage is false exactly when currentPage = 1. -/
theorem getProperties_pagination {α : Type} (matching : List α) (page limit : Nat)
    (hp : 1 ≤ page) (hl : 1 ≤ limit) (hl100 : limit ≤ 100) :
    C3Spec matching page limit := by
  unfold C3Spec paginate
  refine ⟨rfl, rfl, rfl, ceil_mul_lower hl, ceil_mul_upper hl, ?_, rfl, ?_, ?_⟩
  · intro h0
    simp only [h0]
    exact Nat.div_eq_of_lt (by omega)
  · simp only [decide_eq_false_iff_not, Nat.not_lt]
  · simp only [decide_eq_false_iff_not, Nat.not_lt]
    omega

/-- C3 witness: page 2 with limit 2 over a five-element dataset (the
specification own scenario: items 3-4 are returned, both navigation flags
are on). -/
theorem getProperties_pagination_witness :
    (1 ≤ 2 ∧ 1 ≤ 2 ∧ 2 ≤ 100) ∧ C3Spec [10, 20, 30, 40, 50] 2 2 :=
  ⟨by omega, getProperties_pagination [10, 20, 30, 40, 50] 2 2 (by omega) (by omega) (by omega)⟩

/-! ## Helper lemmas: Set-style deduplication and the classification hook -/

theorem mem_jsDedupAux (x : String) (seen l : List String) :
    x ∈ jsDedupAux seen l ↔ (x ∈ l ∧ x ∉ seen) := by
  induction l generalizing seen with
  | nil => simp [jsDedupAux]
  | cons a l ih =>
    by_cases ha : a ∈ seen
    · simp only [jsDedupAux, if_pos ha, ih]
      constructor
      · rintro ⟨h1, h2⟩
        exact ⟨List.mem_cons_of_mem a h1, h2⟩
      · rintro ⟨h1, h2⟩
        rcases List.mem_cons.mp h1 with h | h
        · exact absurd (h ▸ ha) h2
        · exact ⟨h, h2⟩
    · simp only [jsDedupAux, if_neg ha]
      constructor
      · intro hmem
        rcases List.mem_cons.mp hmem with h | h
        · subst h
          exact ⟨List.mem_cons_self x l, ha⟩
        · obtain ⟨h1, h2⟩ := (ih (a :: seen)).mp h
          exact ⟨List.mem_cons_of_mem a h1,
            fun hs => h2 (List.mem_cons_of_mem a hs)⟩
      · rintro ⟨h1, h2⟩
        by_cases hx : x = a
        · subst hx
          exact List.mem_cons_self x _
        · rcases List.mem_cons.mp h1 with h | h
          · exact absurd h hx
          · refine List.mem_cons_of_mem a ((ih (a :: seen)).mpr ⟨h, fun hs => ?_⟩)
            rcases List.mem_cons.mp hs with h3 | h3
            · exact hx h3
            · exact h2 h3

theorem mem_jsDedup (x : String) (l : List String) : x ∈ jsDedup l ↔ x ∈ l := by
  simp [jsDedup, mem_jsDedupAux]

theorem nodup_jsDedupAux (seen l : List String) : (jsDedupAux seen l).Nodup := by
  induction l generalizing seen with
  | nil => simp [jsDedupAux]
  | cons a l ih =>
    by_cases ha : a ∈ seen
    · simpa [jsDedupAux, if_pos ha] using ih seen
    · simp only [jsDedupAux, if_neg ha, List.nodup_cons]
      refine ⟨fun hmem => ?_, ih (a :: seen)⟩
      exact ((mem_jsDedupAux a (a :: seen) l).mp hmem).2 (List.mem_cons_self a seen)

theorem nodup_jsDedup (l : List String) : (jsDedup l).Nodup :=
  nodup_jsDedupAux [] l

theorem jsDedupAux_absorbed (seen r : List String) (h : ∀ x ∈ r, x ∈ seen) :
    jsDedupAux seen r = [] := by
  induction r with
  | nil => rfl
  | cons a r ih =>
    have ha : a ∈ seen := h a (List.mem_cons_self a r)
    simp only [jsDedupAux, if_pos ha]
    exact ih (fun x hx => h x (List.mem_cons_of_mem a hx))

theorem jsDedupAux_append_eats (l : List String) :
    ∀ (seen r : List String), l.Nodup → (∀ x ∈ l, x ∉ seen) →
      (∀ x ∈ r, x ∈ seen ∨ x ∈ l) → jsDedupAux seen (l ++ r) = l := by
  induction l with
  | nil =>
    intro seen r _ _ hr
    simpa using jsDedupAux_absorbed seen r (fun x hx => (hr x hx).resolve_right (by simp))
  | cons a l ih =>
    intro seen r hn hs hr
    have ha : a ∉ seen := hs a (List.mem_cons_self a l)
    simp only [List.cons_append, jsDedupAux, if_neg ha]
    show a :: jsDedupAux (a :: seen) (l ++ r) = a :: l
    rw [ih (a :: seen) r (List.nodup_cons.mp hn).2 ?_ ?_]
    · intro x hx
      intro hmem
      rcases List.mem_cons.mp hmem with h | h
      · exact (List.nodup_cons.mp hn).1 (h ▸ hx)
      · exact hs x (List.mem_cons_of_mem a hx) h
    · intro x hx
      rcases hr x hx with h | h
      · exact Or.inl (List.mem_cons_of_mem a h)
      · rcases List.mem_cons.mp h with h2 | h2
        · exact Or.inl (h2 ▸ List.mem_cons_self a seen)
        · exact Or.inr h2

theorem jsDedup_append_of_sub (d r : List String) (hn : d.Nodup)
    (hr : ∀ x ∈ r, x ∈ d) : jsDedup (d ++ r) = d :=
  jsDedupAux_append_eats d [] r hn (by simp) (fun x hx => Or.inr (hr x hx))

theorem classify_tags (c : Contact) :
    (classify c).tags = jsDedup (c.tags ++ ruleTags (contactText c)) := by
  simp only [classify]
  split_ifs <;> rfl

theorem classify_priority (c : Contact) :
    (classify c).priority =
      (if urgentKeywords.any (fun k => strIncludes (contactText c) k) then "urgent"
       else if highKeywords.any (fun k => strIncludes (contactText c) k) then "high"
       else c.priority) := by
  simp only [classify]
  split_ifs <;> rfl

theorem classify_text_fields (c : Contact) :
    (classify c).message = c.message ∧ (classify c).subject = c.subject := by
  simp only [classify]
  constructor <;> (split_ifs <;> rfl)

theorem preSave_of_saved (c : Contact) (h : c.isNew = false) : preSave c = c := by
  simp [preSave, h]

/-! ## C4: the priority rule -/

/-- C4 counterexample: the claim takes the classified text to be the plain
concatenation of message and subject, but the code joins them with a space.
For message "please urg" and subject "ent" the claimed text contains
"urgent", so the claim demands priority "urgent"; the code stores the
default "medium". -/
theorem contact_priority_counterexample :
    strIncludes (lowerStr ("please urg" ++ "ent")) "urgent" = true
    ∧ (saveDoc (mkContact "please urg" (some "ent") none [])).priority = "medium" := by
  constructor
  · decide
  · decide

/-- C4 (amended): for every newly created contact, with t the lower-cased
space-separated join of message and subject (subject empty when absent), the
persisted priority follows the first-match rule: "urgent" when t contains an
urgent keyword, else "high" when it contains a high keyword, else the
caller-supplied value or the default "medium" — as captured by the reference
function `refPriority`. -/
theorem contact_priority_on_create (m : String) (subj sup : Option String)
    (tags0 : List String) :
    (saveDoc (mkContact m subj sup tags0)).priority = refPriority m subj sup := by
  show (classify (mkContact m subj sup tags0)).priority = refPriority m subj sup
  rw [classify_priority]
  rfl

/-! ## C5: the tag rule -/

theorem mem_ruleTags_viewing (t : String) :
    "viewing-request" ∈ ruleTags t
      ↔ (strIncludes t "viewing" = true ∨ strIncludes t "visit" = true) := by
  unfold ruleTags
  split_ifs <;> simp_all

theorem mem_ruleTags_pricing (t : String) :
    "pricing-inquiry" ∈ ruleTags t
      ↔ (strIncludes t "price" = true ∨ strIncludes t "cost" = true) := by
  unfold ruleTags
  split_ifs <;> simp_all

theorem mem_ruleTags_financing (t : String) :
    "financing" ∈ ruleTags t
      ↔ (strIncludes t "mortgage" = true ∨ strIncludes t "financing" = true) := by
  unfold ruleTags
  split_ifs <;> simp_all

theorem mem_ruleTags_investment (t : String) :
    "investment" ∈ ruleTags t ↔ strIncludes t "investment" = true := by
  unfold ruleTags
  split_ifs <;> simp_all

/-- C5 counterexample: the claim says the persisted tag set equals the
deduplicated union of the caller-supplied tags with the rule-derived tags;
but the schema cast lower-cases (and trims) each caller tag before the hook
runs, so the caller tag "Viewing" is persisted as "viewing".  For a message
with no keywords the rule tags are empty, the claimed union is exactly
["Viewing"], and the persisted tag list is ["viewing"] — not equal. -/
theorem contact_tags_counterexample :
    (saveDoc (mkContact "hello there friend" none none ["Viewing"])).tags = ["viewing"]
    ∧ ruleTags (contactText (mkContact "hello there friend" none none ["Viewing"])) = []
    ∧ jsDedup (["Viewing"]
        ++ ruleTags (contactText (mkContact "hello there friend" none none ["Viewing"])))
        = ["Viewing"]
    ∧ (saveDoc (mkContact "hello there friend" none none ["Viewing"])).tags
        ≠ jsDedup (["Viewing"]
            ++ ruleTags (contactText (mkContact "hello there friend" none none ["Viewing"]))) := by
  refine ⟨?_, ?_, ?_, ?_⟩ <;> decide

/-- C5 (amended): for every newly created contact the persisted tag list is
exactly the deduplicated union of the normalized (trimmed, lower-cased, per
the schema cast) caller-supplied tags and the rule-derived tags, each rule
tag appearing exactly under its keyword condition; the result has no
duplicates; and re-running the classification on the saved document leaves
the tag set unchanged. -/
theorem contact_tags_on_create (m : String) (subj sup : Option String)
    (tags0 : List String) : C5Spec m subj sup tags0 := by
  have htags : (saveDoc (mkContact m subj sup tags0)).tags
      = jsDedup (tags0.map castTag
          ++ ruleTags (contactText (mkContact m subj sup tags0))) := by
    show (classify (mkContact m subj sup tags0)).tags = _
    rw [classify_tags]
    rfl
  have hmsg : (saveDoc (mkContact m subj sup tags0)).message = m := by
    show (classify (mkContact m subj sup tags0)).message = m
    rw [(classify_text_fields (mkContact m subj sup tags0)).1]
    rfl
  have hsubj : (saveDoc (mkContact m subj sup tags0)).subject = subj := by
    show (classify (mkContact m subj sup tags0)).subject = subj
    rw [(classify_text_fields (mkContact m subj sup tags0)).2]
    rfl
  have htext : contactText (saveDoc (mkContact m subj sup tags0))
      = contactText (mkContact m subj sup tags0) := by
    unfold contactText
    rw [hmsg, hsubj]
    rfl
  unfold C5Spec
  refine ⟨?_, mem_ruleTags_viewing _, mem_ruleTags_pricing _, mem_ruleTags_financing _,
    mem_ruleTags_investment _, ?_, ?_⟩
  · intro x
    rw [htags, mem_jsDedup]
    exact List.mem_append
  · rw [htags]
    exact nodup_jsDedup _
  · rw [classify_tags, htext, htags]
    apply jsDedup_append_of_sub
    · exact nodup_jsDedup _
    · intro x hx
      rw [mem_jsDedup]
      exact List.mem_append_right _ hx

/-! ## C6: classification happens only at creation -/

/-- C6 (confirmed): for every already persisted contact, a re-save, the
staff update and the mark-as-contacted operation never recompute priority or
tags from the message text: tags are never touched, priority is preserved by
re-save and mark-as-contacted, and the staff update sets it exactly to the
explicitly supplied truthy value, otherwise leaves it. -/
theorem contact_classified_once (c : Contact) (u : ContactUpdate)
    (notes : Option String) (now : Nat) (h : c.isNew = false) :
    C6Spec c u notes now := by
  unfold C6Spec
  refine ⟨?_, ?_, rfl, ?_, ?_, rfl⟩
  · simp [saveDoc, preSave, h]
  · simp [saveDoc, preSave, h]
  · simp [markContacted, saveDoc, preSave, h]
  · simp [markContacted, saveDoc, preSave, h]

/-- C6 witness: a persisted contact whose text contains "urgent" but whose
priority was later set to "low"; one round of re-save, update and
mark-as-contacted leaves priority and tags as stated. -/
theorem contact_classified_once_witness :
    lowPrioritySavedContact.isNew = false
    ∧ C6Spec lowPrioritySavedContact
        { status := none, notes := some "called back", assignedTo := none, priority := none }
        (some "left a note") 9 :=
  ⟨by decide,
   contact_classified_once lowPrioritySavedContact
     { status := none, notes := some "called back", assignedTo := none, priority := none }
     (some "left a note") 9 (by decide)⟩

/-! ## C9: the response timestamp -/

/-- C9 counterexample: the claim says responseDate, once set, is never
overwritten; but `markAsContacted` stamps the current time unconditionally,
so a second call overwrites the first timestamp. -/
theorem contact_response_date_counterexample :
    (markContacted none 1 plainSavedContact).responseDate = some 1
    ∧ (markContacted none 2 (markContacted none 1 plainSavedContact)).responseDate
        = some 2 := by
  constructor
  · decide
  · decide

/-- C9 (amended): for every persisted contact, the dedicated mark-as-contacted
operation sets responseDate to the current time on every invocation
(overwriting any earlier value); the staff update sets it exactly on a
transition into "contacted" from a different status and otherwise preserves
it; a plain re-save preserves it. -/
theorem contact_response_date (c : Contact) (u : ContactUpdate)
    (notes : Option String) (now : Nat) (h : c.isNew = false) :
    C9Spec c u notes now := by
  unfold C9Spec
  refine ⟨?_, ?_, ?_⟩
  · simp [markContacted, saveDoc, preSave, h]
  · simp only [updContact]
    by_cases h1 : u.status = some "contacted" <;> by_cases h2 : c.status = "contacted" <;>
      simp [h1, h2]
  · simp [saveDoc, preSave, h]

/-- C9 witness: the amended theorem applied to a concrete persisted contact
and an update that sets status to "resolved". -/
theorem contact_response_date_witness :
    plainSavedContact.isNew = false
    ∧ C9Spec plainSavedContact
        { status := some "resolved", notes := none, assignedTo := none, priority := none }
        none 3 :=
  ⟨by decide,
   contact_response_date plainSavedContact
     { status := some "resolved", notes := none, assignedTo := none, priority := none }
     none 3 (by decide)⟩

/-! ## C7: the Service formatted price -/

/-- C7 (confirmed): for every service, the derived formatted price agrees
with the specification case analysis (`refServiceFormattedPrice`), and the
specification own examples hold: hourly 200 renders "$200.00/hour",
percentage 6 renders "6%", and any "free" service renders "Free". -/
theorem service_formatted_price (priceType : String) (price : Nat) :
    serviceFormattedPrice priceType price = refServiceFormattedPrice priceType price
    ∧ serviceFormattedPrice "hourly" 200 = "$200.00/hour"
    ∧ serviceFormattedPrice "percentage" 6 = "6%"
    ∧ serviceFormattedPrice "free" price = "Free" := by
  refine ⟨?_, by decide, by decide, ?_⟩
  · unfold serviceFormattedPrice refServiceFormattedPrice
    by_cases h1 : priceType = "free" <;> by_cases h2 : priceType = "consultation" <;>
      by_cases h3 : price = 0 <;> simp [h1, h2, h3]
  · unfold serviceFormattedPrice
    simp

/-! ## C8: the stored Listing priceFormatted -/

/-- C8 (code bug): the spec says the stored priceFormatted always holds the
currency formatting of the current price, recomputed on every price change
including through the update operation, with no special-casing of any value.
The code violates this twice: `updateProperty` uses `findByIdAndUpdate`,
which bypasses the formatting pre-save hook, so after updating the price
from 1000 to 2000 the stored field still reads "$1,000.00" instead of
"$2,000.00"; and the `if (this.price)` guard in the hook skips a zero price, so a
document saved with price 0 carries no formatted price at all (rather than
"$0.00"). -/
theorem property_price_formatted_bug :
    c8CreatedDoc.priceFormatted = some "$1,000.00"
    ∧ (updatePropertyOp c8UpdateBody c8CreatedDoc).price = 2000
    ∧ (updatePropertyOp c8UpdateBody c8CreatedDoc).priceFormatted = some "$1,000.00"
    ∧ formatUSD (updatePropertyOp c8UpdateBody c8CreatedDoc).price = "$2,000.00"
    ∧ (updatePropertyOp c8UpdateBody c8CreatedDoc).priceFormatted
        ≠ some (formatUSD (updatePropertyOp c8UpdateBody c8CreatedDoc).price)
    ∧ (propSave { name := "Loft", description := "d", location := "l", price := 0,
                  priceFormatted := none }).priceFormatted = none := by
  refine ⟨?_, ?_, ?_, ?_, ?_, ?_⟩ <;> decide

/-! ## C10: reading an inactive service -/

/-- C10 (confirmed): for every store and id, if the id resolves to a service
whose active flag is false, the public single-service read returns the same
404 NOT_FOUND envelope as for an id that does not exist at all (the response
for the empty store), and leaves the store — hence every view counter —
unchanged. -/
theorem service_inactive_not_found (store : List ServiceDoc) (id now : Nat)
    (s : ServiceDoc) (hfind : findServiceById store id = some s)
    (hact : s.active = false) : C10Spec store id now := by
  unfold C10Spec getService
  rw [hfind]
  simp [hact, findServiceById]

/-- C10 witness: the theorem applied to a one-element store holding an
inactive service. -/
theorem service_inactive_not_found_witness :
    (findServiceById c10Store 1 = some inactiveService ∧ inactiveService.active = false)
    ∧ C10Spec c10Store 1 7 :=
  ⟨⟨by decide, by decide⟩,
   service_inactive_not_found c10Store 1 7 inactiveService (by decide) (by decide)⟩

end RealEstateBackend
